import Mathlib

/-!
Shallow embedding of `src/server.py` (trailzy): an in-memory
social-location-sharing backend. The four module-level registers
(`USERS`, `LOCATIONS`, `FRIENDS`, `INVITES`) become fields of a
`ServerState`; Python `dict`s become association lists with
first-match lookup and replace-or-append update, and Python `set`s
of friend ids become duplicate-free lists. CPython iterates a set in
hash-slot order, which the model does not reproduce: the list keeps
its elements in one definite bookkeeping order (the order `set.add`
first saw them), and no theorem depends on that choice — every
order-sensitive statement below is either proved uniformly over all
enumeration orders of the set, or (for one concrete counterexample)
checked against CPython's actual hash-slot order at the state
involved. Handlers that mutate the
registers become state-transforming functions; the wall-clock time
`now_ts()` and the random invite code `secrets.token_urlsafe(8)`
enter as explicit parameters. Latitude/longitude values are never
computed with, only stored and echoed back, so they are modelled by
an opaque choice of `Int`.
-/

namespace Trailzy

/-- First-match lookup in an association list, i.e. Python `dict.get`:
`dictGet d k = d[k]` when the key is present, `none` otherwise. -/
def dictGet {α β : Type} [DecidableEq α] : List (α × β) → α → Option β
  | [], _ => none
  | (k', v) :: rest, k => if k' = k then some v else dictGet rest k

/-- Python `d[k] = v`: replace the first binding of `k` if present,
otherwise append the new binding at the end. -/
def dictSet {α β : Type} [DecidableEq α] : List (α × β) → α → β → List (α × β)
  | [], k, v => [(k, v)]
  | (k', v') :: rest, k, v =>
      if k' = k then (k, v) :: rest else (k', v') :: dictSet rest k v

/-- Python `set.add`: append the element unless it is already a member.
Only the membership semantics (no duplicates, grow-by-one) is meant to
transfer to the program; the resulting list order is a bookkeeping
order, not CPython's hash-slot iteration order. -/
def setAdd (s : List Int) (x : Int) : List Int :=
  if x ∈ s then s else s ++ [x]

/-- A record of `USERS`: `{"id": ..., "name": ..., "username": ...}`.
The `id` key always repeats the dictionary key, so it is not stored. -/
structure Profile where
  name : String
  username : Option String
deriving DecidableEq, Repr

/-- A record of `LOCATIONS`: `{"lat", "lon", "updated_at", "is_live"}`. -/
structure Location where
  lat : Int
  lon : Int
  updated_at : Int
  is_live : Bool
deriving DecidableEq, Repr

/-- One element of the JSON array returned by `/api/friends-locations`. -/
structure FriendLoc where
  user_id : Int
  lat : Int
  lon : Int
  updated_at : Int
  is_live : Bool
deriving DecidableEq, Repr

/-- The JSON object returned by `/api/me`. -/
structure MeResponse where
  id : Int
  name : String
  username : Option String
deriving DecidableEq, Repr

/-- The four module-level registers of `server.py`. -/
structure ServerState where
  users : List (Int × Profile)
  locations : List (Int × Location)
  friends : List (Int × List Int)
  invites : List (String × Int)
deriving DecidableEq, Repr

/-- The state at process start: all four registers empty. -/
def initState : ServerState := ⟨[], [], [], []⟩

/-- `FRIENDS.get(user_id, set())`, as used by `/api/friends` and
`/api/friends-locations`. -/
def getFriends (st : ServerState) (u : Int) : List Int :=
  (dictGet st.friends u).getD []

/-- `LOCATIONS.get(fid)`: the Position Register read. -/
def getPosition (st : ServerState) (u : Int) : Option Location :=
  dictGet st.locations u

/-- Python `full_name or "User"`: an empty display name falls back to
the placeholder, any other string is kept. -/
def pyOrUser (full_name : String) : String :=
  if full_name = "" then "User" else full_name

/-- Python `bool(getattr(loc, "live_period", None))`: `None` and `0`
are falsy, any other integer is truthy. -/
def pyTruthy (live_period : Option Int) : Bool :=
  match live_period with
  | none => false
  | some n => n != 0

/-- `add_friend(a, b)` (`server.py` lines 39-41):
`FRIENDS.setdefault(a, set()).add(b)` then
`FRIENDS.setdefault(b, set()).add(a)`. -/
def add_friend (st : ServerState) (a b : Int) : ServerState :=
  let st1 : ServerState :=
    { st with friends := dictSet st.friends a (setAdd (getFriends st a) b) }
  { st1 with friends := dictSet st1.friends b (setAdd (getFriends st1 b) a) }

/-- The `/start` handler: unconditionally stores the profile of the
sender (`USERS[m.from_user.id] = {...}`). -/
def start (st : ServerState) (uid : Int) (full_name : String)
    (username : Option String) : ServerState :=
  { st with users := dictSet st.users uid ⟨pyOrUser full_name, username⟩ }

/-- The location-message handler `got_location` (`server.py` lines
146-159): `USERS.setdefault(...)` creates a placeholder profile only
when none exists, then `LOCATIONS[uid] = {...}` overwrites the
position with the receipt time `t = now_ts()`. `t` is the server
clock at receipt; no client-supplied timestamp is ever read. -/
def got_location (st : ServerState) (uid : Int) (full_name : String)
    (username : Option String) (lat lon : Int) (live_period : Option Int)
    (t : Int) : ServerState :=
  let users1 :=
    match dictGet st.users uid with
    | some _ => st.users
    | none => dictSet st.users uid ⟨pyOrUser full_name, username⟩
  { st with users := users1,
            locations := dictSet st.locations uid ⟨lat, lon, t, pyTruthy live_period⟩ }

/-- `/api/me`: `USERS.get(user_id, default)` with the placeholder
default `{"id": user_id, "name": "Unknown", "username": None}`;
never fails. -/
def api_me (st : ServerState) (user_id : Int) : MeResponse :=
  let u := (dictGet st.users user_id).getD ⟨"Unknown", none⟩
  ⟨user_id, u.name, u.username⟩

/-- `/api/invite`: mints a code and records `INVITES[code] = user_id`.
The random token `secrets.token_urlsafe(8)` is an input of the model. -/
def api_invite (st : ServerState) (user_id : Int) (code : String) :
    ServerState × String :=
  ({ st with invites := dictSet st.invites code user_id }, code)

/-- `/api/accept` (`server.py` lines 91-97): `owner = INVITES.get(code)`;
`if not owner or owner == user_id` answer HTTP 400 (`false` here),
else `add_friend(owner, user_id)` and answer ok. Note the Python
truthiness test: `not owner` holds both when the code is absent
(`owner is None`) and when the stored owner id is the integer `0`. -/
def api_accept (st : ServerState) (user_id : Int) (code : String) :
    ServerState × Bool :=
  match dictGet st.invites code with
  | none => (st, false)
  | some owner =>
      if owner = 0 ∨ owner = user_id then (st, false)
      else (add_friend st owner user_id, true)

/-- `/api/friends-locations` (`server.py` lines 67-82): iterate the
friend set of `user_id` in its stored order, skip friends with no
recorded location, and echo each stored location record. -/
def api_friends_locations (st : ServerState) (user_id : Int) : List FriendLoc :=
  (getFriends st user_id).filterMap (fun fid =>
    match getPosition st fid with
    | none => none
    | some loc => some ⟨fid, loc.lat, loc.lon, loc.updated_at, loc.is_live⟩)

/-- One state-mutating request or message, as dispatched by the two
ingress adapters. Read-only endpoints do not change the state and
have no step. -/
inductive Step : ServerState → ServerState → Prop
  | doStart (st : ServerState) (uid : Int) (fn : String) (un : Option String) :
      Step st (start st uid fn un)
  | doLocation (st : ServerState) (uid : Int) (fn : String) (un : Option String)
      (lat lon : Int) (lp : Option Int) (t : Int) :
      Step st (got_location st uid fn un lat lon lp t)
  | doInvite (st : ServerState) (uid : Int) (code : String) :
      Step st (api_invite st uid code).1
  | doAccept (st : ServerState) (uid : Int) (code : String) :
      Step st (api_accept st uid code).1

/-- States reachable from the empty start state by any sequence of
requests and messages. -/
inductive Reachable : ServerState → Prop
  | init : Reachable initState
  | step {s s' : ServerState} : Reachable s → Step s s' → Reachable s'

/-! ### Lookup/update lemmas for the dictionary model -/

theorem dictGet_dictSet {α β : Type} [DecidableEq α] (d : List (α × β))
    (k k' : α) (v : β) :
    dictGet (dictSet d k v) k' = if k = k' then some v else dictGet d k' := by
  induction d with
  | nil => simp [dictGet, dictSet]
  | cons p rest ih =>
      obtain ⟨k₀, v₀⟩ := p
      by_cases h : k₀ = k
      · subst h
        by_cases h' : k₀ = k'
        · subst h'; simp [dictGet, dictSet]
        · simp [dictGet, dictSet, h']
      · by_cases h' : k₀ = k'
        · subst h'
          have : ¬ k = k₀ := fun e => h e.symm
          simp [dictGet, dictSet, h, this]
        · simp [dictGet, dictSet, h, h', ih]

theorem mem_setAdd (s : List Int) (x y : Int) :
    y ∈ setAdd s x ↔ y ∈ s ∨ y = x := by
  by_cases h : x ∈ s
  · simp only [setAdd, if_pos h]
    constructor
    · exact fun hy => Or.inl hy
    · rintro (hy | rfl)
      · exact hy
      · exact h
  · simp [setAdd, if_neg h]

theorem nodup_setAdd (s : List Int) (x : Int) (h : s.Nodup) :
    (setAdd s x).Nodup := by
  by_cases hx : x ∈ s
  · simpa [setAdd, if_pos hx] using h
  · simp only [setAdd, if_neg hx]
    exact List.Nodup.append h (List.nodup_singleton x) (by simpa using hx)

/-- How `add_friend a b` (with `a ≠ b`) rewrites every friend list:
`b` is appended to `a`'s list, `a` to `b`'s, all others untouched. -/
theorem getFriends_add_friend (st : ServerState) (a b u : Int) (hab : a ≠ b) :
    getFriends (add_friend st a b) u =
      if u = a then setAdd (getFriends st a) b
      else if u = b then setAdd (getFriends st b) a
      else getFriends st u := by
  have hba : ¬ b = a := fun e => hab e.symm
  show ((dictGet (dictSet (dictSet st.friends a (setAdd (getFriends st a) b)) b
      (setAdd ((dictGet (dictSet st.friends a (setAdd (getFriends st a) b)) b).getD [])
        a)) u).getD []) = _
  rw [dictGet_dictSet, dictGet_dictSet, dictGet_dictSet]
  by_cases hub : u = b
  · subst hub
    simp [hab, hba, getFriends]
  · by_cases hua : u = a
    · subst hua
      simp [hab, hba, getFriends]
    · have h1 : ¬ b = u := fun e => hub e.symm
      have h2 : ¬ a = u := fun e => hua e.symm
      simp [h1, h2, hua, hub, getFriends]

/-- Steps other than a successful accept leave the friendship graph
untouched. -/
theorem friends_start (st : ServerState) (uid : Int) (fn : String)
    (un : Option String) : (start st uid fn un).friends = st.friends := rfl

theorem friends_got_location (st : ServerState) (uid : Int) (fn : String)
    (un : Option String) (lat lon : Int) (lp : Option Int) (t : Int) :
    (got_location st uid fn un lat lon lp t).friends = st.friends := rfl

theorem friends_api_invite (st : ServerState) (uid : Int) (code : String) :
    ((api_invite st uid code).1).friends = st.friends := rfl

/-- `api_accept` either rejects and returns the state unchanged, or
resolves a nonzero owner distinct from the requester and calls
`add_friend owner requester`. -/
theorem api_accept_cases (st : ServerState) (uid : Int) (code : String) :
    (api_accept st uid code).1 = st ∨
      ∃ owner, dictGet st.invites code = some owner ∧ owner ≠ 0 ∧ owner ≠ uid ∧
        (api_accept st uid code).1 = add_friend st owner uid := by
  unfold api_accept
  cases h : dictGet st.invites code with
  | none => exact Or.inl rfl
  | some owner =>
      by_cases h0 : owner = 0 ∨ owner = uid
      · simp [h0]
      · push_neg at h0
        exact Or.inr ⟨owner, rfl, h0.1, h0.2, by simp [h0.1, h0.2]⟩

/-! ### The friendship-graph invariant -/

/-- The conjunction of the graph invariants maintained by every
operation: symmetry of edges, absence of self-edges, and
duplicate-freedom of each friend list. -/
def FriendsInv (st : ServerState) : Prop :=
  (∀ a b : Int, a ∈ getFriends st b ↔ b ∈ getFriends st a) ∧
  (∀ u : Int, u ∉ getFriends st u) ∧
  (∀ u : Int, (getFriends st u).Nodup)

theorem friendsInv_init : FriendsInv initState := by
  refine ⟨fun a b => ?_, fun u => ?_, fun u => ?_⟩ <;>
    simp [getFriends, initState, dictGet]

theorem getFriends_congr {st st' : ServerState}
    (h : st'.friends = st.friends) (u : Int) :
    getFriends st' u = getFriends st u := by
  simp [getFriends, h]

theorem friendsInv_congr {st st' : ServerState}
    (h : st'.friends = st.friends) (hi : FriendsInv st) : FriendsInv st' := by
  obtain ⟨h1, h2, h3⟩ := hi
  refine ⟨fun a b => ?_, fun u => ?_, fun u => ?_⟩ <;>
    rw [getFriends_congr h] <;> first
      | (rw [getFriends_congr h]; exact h1 a b)
      | exact h2 u
      | exact h3 u

/-- Membership after `add_friend`: exactly the old edges plus the two
directions of the new edge `{a, b}`. -/
theorem mem_getFriends_add_friend (st : ServerState) (a b x y : Int)
    (hab : a ≠ b) :
    y ∈ getFriends (add_friend st a b) x ↔
      y ∈ getFriends st x ∨ (x = a ∧ y = b) ∨ (x = b ∧ y = a) := by
  have hba : b ≠ a := fun e => hab e.symm
  rw [getFriends_add_friend st a b x hab]
  by_cases hxa : x = a
  · rw [if_pos hxa, mem_setAdd, hxa]
    constructor
    · rintro (hy | rfl)
      · exact Or.inl hy
      · exact Or.inr (Or.inl ⟨rfl, rfl⟩)
    · rintro (hy | ⟨-, rfl⟩ | ⟨hb, -⟩)
      · exact Or.inl hy
      · exact Or.inr rfl
      · exact absurd hb hab
  · rw [if_neg hxa]
    by_cases hxb : x = b
    · rw [if_pos hxb, mem_setAdd, hxb]
      constructor
      · rintro (hy | rfl)
        · exact Or.inl hy
        · exact Or.inr (Or.inr ⟨rfl, rfl⟩)
      · rintro (hy | ⟨ha, -⟩ | ⟨-, rfl⟩)
        · exact Or.inl hy
        · exact absurd ha hba
        · exact Or.inr rfl
    · rw [if_neg hxb]
      constructor
      · exact fun hy => Or.inl hy
      · rintro (hy | ⟨ha, -⟩ | ⟨hb, -⟩)
        · exact hy
        · exact absurd ha hxa
        · exact absurd hb hxb

theorem friendsInv_add_friend (st : ServerState) (a b : Int) (hab : a ≠ b)
    (hi : FriendsInv st) : FriendsInv (add_friend st a b) := by
  obtain ⟨hsym, hirr, hnd⟩ := hi
  refine ⟨fun x y => ?_, fun u => ?_, fun u => ?_⟩
  · rw [mem_getFriends_add_friend st a b y x hab,
      mem_getFriends_add_friend st a b x y hab, hsym x y]
    tauto
  · rw [mem_getFriends_add_friend st a b u u hab]
    rintro (hy | ⟨rfl, hb⟩ | ⟨rfl, ha⟩)
    · exact hirr u hy
    · exact hab hb
    · exact hab ha.symm
  · rw [getFriends_add_friend st a b u hab]
    by_cases hua : u = a
    · rw [if_pos hua]; exact nodup_setAdd _ _ (hnd a)
    · rw [if_neg hua]
      by_cases hub : u = b
      · rw [if_pos hub]; exact nodup_setAdd _ _ (hnd b)
      · rw [if_neg hub]; exact hnd u

theorem friendsInv_step {st st' : ServerState} (h : Step st st')
    (hi : FriendsInv st) : FriendsInv st' := by
  cases h with
  | doStart uid fn un => exact friendsInv_congr (friends_start st uid fn un) hi
  | doLocation uid fn un lat lon lp t =>
      exact friendsInv_congr (friends_got_location st uid fn un lat lon lp t) hi
  | doInvite uid code => exact friendsInv_congr (friends_api_invite st uid code) hi
  | doAccept uid code =>
      rcases api_accept_cases st uid code with heq | ⟨owner, _, _, hne, heq⟩
      · rw [heq]; exact hi
      · rw [heq]; exact friendsInv_add_friend st owner uid hne hi

/-- Every reachable state satisfies the friendship-graph invariant. -/
theorem friendsInv_reachable {st : ServerState} (h : Reachable st) :
    FriendsInv st := by
  induction h with
  | init => exact friendsInv_init
  | step _ hstep ih => exact friendsInv_step hstep ih

/-! ### Concrete reachable scenario states -/

/-- User 1 creates invite `"c"`. -/
def stAB1 : ServerState := (api_invite initState 1 "c").1

/-- User 2 accepts invite `"c"` of user 1: edge {1, 2}. -/
def stAB : ServerState := (api_accept stAB1 2 "c").1

theorem reachable_stAB1 : Reachable stAB1 :=
  Reachable.step Reachable.init (Step.doInvite initState 1 "c")

theorem reachable_stAB : Reachable stAB :=
  Reachable.step reachable_stAB1 (Step.doAccept stAB1 2 "c")

/-- User 9 creates invite `"a"`, user 2 creates invite `"b"`, user 1
accepts both (in that order), then users 9 and 2 report locations.
User 1's friend list is `[9, 2]` in stored order. -/
def stScA : ServerState := (api_invite initState 9 "a").1

def stScB : ServerState := (api_invite stScA 2 "b").1

def stScC : ServerState := (api_accept stScB 1 "a").1

def stScD : ServerState := (api_accept stScC 1 "b").1

def stScE : ServerState := got_location stScD 9 "N" none 10 20 none 100

def stSc : ServerState := got_location stScE 2 "M" none 30 40 (some 5) 200

theorem reachable_stSc : Reachable stSc :=
  Reachable.step
    (Reachable.step
      (Reachable.step
        (Reachable.step
          (Reachable.step
            (Reachable.step Reachable.init (Step.doInvite initState 9 "a"))
            (Step.doInvite stScA 2 "b"))
          (Step.doAccept stScB 1 "a"))
        (Step.doAccept stScC 1 "b"))
      (Step.doLocation stScD 9 "N" none 10 20 none 100))
    (Step.doLocation stScE 2 "M" none 30 40 (some 5) 200)

/-! ### Claims -/

/-- C2: in every reachable state of the friendship graph, `b` is in
`getFriends a` if and only if `a` is in `getFriends b`; no operation
can ever produce a one-directional edge. -/
theorem C2_friendship_symmetric (st : ServerState) (h : Reachable st)
    (a b : Int) : b ∈ getFriends st a ↔ a ∈ getFriends st b :=
  (friendsInv_reachable h).1 b a

/-- C2 witness: after user 2 accepts user 1's invite, the edge {1, 2}
is present in both directions. -/
theorem C2_friendship_symmetric_witness :
    Reachable stAB ∧ (2 : Int) ∈ getFriends stAB 1 ∧
      ((2 : Int) ∈ getFriends stAB 1 ↔ (1 : Int) ∈ getFriends stAB 2) :=
  ⟨reachable_stAB, by decide, C2_friendship_symmetric stAB reachable_stAB 1 2⟩

/-- C9: in every reachable state, no user identifier is a member of its
own friend set: the graph contains no self-edge. -/
theorem C9_no_self_edge (st : ServerState) (h : Reachable st) (u : Int) :
    u ∉ getFriends st u :=
  (friendsInv_reachable h).2.1 u

/-- C9 witness: in a reachable state where user 1 has the friends
`[9, 2]`, user 1 is not their own friend. -/
theorem C9_no_self_edge_witness :
    Reachable stSc ∧ getFriends stSc 1 = [9, 2] ∧
      (1 : Int) ∉ getFriends stSc 1 :=
  ⟨reachable_stSc, by decide, C9_no_self_edge stSc reachable_stSc 1⟩

/-- C1 counterexample: the ledger can hold a code whose recorded owner
is the identifier `0` (created by `POST /api/invite?user_id=0`); for a
requester `5 ≠ 0` the claim demands success, but `api_accept` rejects,
because Python's `not owner` is true for the integer `0`. -/
theorem C1_zero_owner_counterexample :
    Reachable (api_invite initState 0 "c").1 ∧
      dictGet (api_invite initState 0 "c").1.invites "c" = some 0 ∧
      (0 : Int) ≠ 5 ∧
      (api_accept (api_invite initState 0 "c").1 5 "c").2 = false :=
  ⟨Reachable.step Reachable.init (Step.doInvite initState 0 "c"),
    by decide, by decide, by decide⟩

/-- C1 (amended): `acceptInvite` fails exactly when the code is absent
from the ledger, or the resolved owner is the identifier `0` (which the
truthiness test `not owner` conflates with an absent code), or the
resolved owner equals the requester; every stored code whose owner is
nonzero and differs from the requester is accepted. -/
theorem C1_accept_failure_iff (st : ServerState) (code : String) (r : Int) :
    (api_accept st r code).2 = false ↔
      dictGet st.invites code = none ∨ dictGet st.invites code = some 0 ∨
        dictGet st.invites code = some r := by
  unfold api_accept
  cases hc : dictGet st.invites code with
  | none => simp
  | some o =>
      by_cases h0 : o = 0 ∨ o = r
      · rcases h0 with rfl | rfl <;> simp
      · push_neg at h0
        simp [h0.1, h0.2]

/-- C6: whenever `api_accept` rejects (HTTP 400), no register is
modified — the state is returned exactly as it was. -/
theorem C6_reject_no_mutation (st : ServerState) (r : Int) (code : String)
    (h : (api_accept st r code).2 = false) :
    (api_accept st r code).1 = st := by
  unfold api_accept at h ⊢
  cases hc : dictGet st.invites code with
  | none => rfl
  | some o =>
      by_cases h0 : o = 0 ∨ o = r
      · simp [h0]
      · rw [hc] at h
        simp [h0] at h

/-- C6 witness: user 1 creates invite `"c"` and then tries to accept
their own code; the call is rejected and the whole state — in
particular the friendship graph — is unchanged. -/
theorem C6_reject_no_mutation_witness :
    (api_accept stAB1 1 "c").2 = false ∧ (api_accept stAB1 1 "c").1 = stAB1 :=
  ⟨by decide, C6_reject_no_mutation stAB1 1 "c" (by decide)⟩

/-- C3 counterexample: in the reachable state where user 1 accepted
user 9's invite before user 2's invite and both friends reported a
location, `/api/friends-locations` lists user 9 before user 2 — the
handler iterates the stored friend set without sorting (unlike
`/api/friends`, which does sort). The model's order `[9, 2]` agrees
with the real program here: CPython iterates the set `{9, 2}` in
hash-slot order, and with `hash(9) mod 8 = 1` and `hash(2) mod 8 = 2`
the ids occupy slots 1 and 2 of the 8-slot table with no collision, so
the program's loop also visits 9 before 2. -/
theorem C3_not_sorted_counterexample :
    Reachable stSc ∧
      (api_friends_locations stSc 1).map (fun r => r.user_id) = [9, 2] ∧
      ¬ List.Sorted (fun a b : Int => a ≤ b)
          ((api_friends_locations stSc 1).map (fun r => r.user_id)) :=
  ⟨reachable_stSc, by decide, by decide⟩

/-- The friends-locations loop body, applied to an arbitrary
enumeration order `l` of friend ids: it emits one record per id with a
stored position and preserves the enumeration order. Stated and proved
uniformly over every `l`, because CPython iterates a set in hash-slot
order and the model does not fix which order that is. -/
theorem map_user_id_filterMap_locations (st : ServerState) (l : List Int) :
    (l.filterMap (fun fid =>
        match getPosition st fid with
        | none => none
        | some loc =>
            some (⟨fid, loc.lat, loc.lon, loc.updated_at, loc.is_live⟩ :
              FriendLoc))).map (fun r => r.user_id) =
      l.filter (fun f => (getPosition st f).isSome) := by
  induction l with
  | nil => simp
  | cons a l ih =>
      cases hp : getPosition st a with
      | none => simp [List.filterMap_cons, List.filter_cons, hp, ih]
      | some loc => simp [List.filterMap_cons, List.filter_cons, hp, ih]

/-- C3 (amended): the response of `/api/friends-locations` is not, in
general, sorted by friend identifier. What the handler does guarantee
is that it neither sorts nor reorders: it emits exactly the
position-holding friends, preserving the iteration order of the stored
friend set — whichever order that set iterates in, since the underlying
lemma holds uniformly for every enumeration order. -/
theorem C3_order_follows_iteration (st : ServerState) (u : Int) :
    (api_friends_locations st u).map (fun r => r.user_id) =
      (getFriends st u).filter (fun f => (getPosition st f).isSome) :=
  map_user_id_filterMap_locations st (getFriends st u)

/-- C8: `/api/me` is total: it echoes the stored profile when one
exists and otherwise answers the placeholder profile with name
`"Unknown"` and an absent handle. -/
theorem C8_profile_total (st : ServerState) (u : Int) :
    api_me st u =
      match dictGet st.users u with
      | some p => ⟨u, p.name, p.username⟩
      | none => ⟨u, "Unknown", none⟩ := by
  unfold api_me
  cases dictGet st.users u with
  | none => rfl
  | some p => rfl

/-! ### Key lemmas for the Position Register -/

theorem dictSet_cons_eq {α β : Type} [DecidableEq α] (rest : List (α × β))
    (k k' : α) (v v' : β) (h : k' = k) :
    dictSet ((k', v') :: rest) k v = (k, v) :: rest := by
  simp [dictSet, h]

theorem dictSet_cons_ne {α β : Type} [DecidableEq α] (rest : List (α × β))
    (k k' : α) (v v' : β) (h : ¬ k' = k) :
    dictSet ((k', v') :: rest) k v = (k', v') :: dictSet rest k v := by
  simp [dictSet, h]

theorem mem_keys_dictSet {α β : Type} [DecidableEq α] (d : List (α × β))
    (k : α) (v : β) (x : α) (h : x ∈ (dictSet d k v).map Prod.fst) :
    x = k ∨ x ∈ d.map Prod.fst := by
  induction d with
  | nil => simpa [dictSet] using h
  | cons p rest ih =>
      obtain ⟨k0, v0⟩ := p
      by_cases hk : k0 = k
      · rw [dictSet_cons_eq rest k k0 v v0 hk] at h
        simp only [List.map_cons, List.mem_cons] at h
        cases h with
        | inl he => exact Or.inl he
        | inr hm =>
            exact Or.inr (by simp only [List.map_cons, List.mem_cons]; exact Or.inr hm)
      · rw [dictSet_cons_ne rest k k0 v v0 hk] at h
        simp only [List.map_cons, List.mem_cons] at h
        cases h with
        | inl he =>
            exact Or.inr (by simp only [List.map_cons, List.mem_cons]; exact Or.inl he)
        | inr hm =>
            cases ih hm with
            | inl he => exact Or.inl he
            | inr hm' =>
                exact Or.inr
                  (by simp only [List.map_cons, List.mem_cons]; exact Or.inr hm')

/-- `d[k] = v` never duplicates a key: the register keeps at most one
entry per user. -/
theorem nodup_keys_dictSet {α β : Type} [DecidableEq α] (d : List (α × β))
    (k : α) (v : β) (h : (d.map Prod.fst).Nodup) :
    ((dictSet d k v).map Prod.fst).Nodup := by
  induction d with
  | nil => simp [dictSet]
  | cons p rest ih =>
      obtain ⟨k0, v0⟩ := p
      simp only [List.map_cons, List.nodup_cons] at h
      by_cases hk : k0 = k
      · rw [dictSet_cons_eq rest k k0 v v0 hk]
        simp only [List.map_cons, List.nodup_cons]
        exact ⟨by rw [← hk]; exact h.1, h.2⟩
      · rw [dictSet_cons_ne rest k k0 v v0 hk]
        simp only [List.map_cons, List.nodup_cons]
        refine ⟨fun hmem => ?_, ih h.2⟩
        rcases mem_keys_dictSet rest k v k0 hmem with he | hmem'
        · exact hk he
        · exact h.1 hmem'

theorem getPosition_got_location_self (st : ServerState) (uid : Int)
    (fn : String) (un : Option String) (lat lon : Int) (lp : Option Int)
    (t : Int) :
    getPosition (got_location st uid fn un lat lon lp t) uid =
      some ⟨lat, lon, t, pyTruthy lp⟩ := by
  show dictGet (dictSet st.locations uid _) uid = _
  rw [dictGet_dictSet]
  simp

theorem getPosition_got_location_other (st : ServerState) (uid v : Int)
    (fn : String) (un : Option String) (lat lon : Int) (lp : Option Int)
    (t : Int) (hv : v ≠ uid) :
    getPosition (got_location st uid fn un lat lon lp t) v =
      getPosition st v := by
  show dictGet (dictSet st.locations uid _) v = _
  rw [dictGet_dictSet, if_neg (Ne.symm hv)]
  rfl

/-- C7: after a second position report for the same user, the register
holds exactly the second report's coordinates and liveness flag,
stamped with the receipt time of the second report (the model's `t`
parameter is `now_ts()` at receipt — no client-supplied time exists in
the record); the stored timestamps of the two reports are `t1 ≤ t2`;
and the register keeps at most one entry per user. -/
theorem C7_last_write_wins (st : ServerState) (u : Int) (fn1 fn2 : String)
    (un1 un2 : Option String) (lat1 lon1 lat2 lon2 : Int)
    (lp1 lp2 : Option Int) (t1 t2 : Int) (h12 : t1 ≤ t2) :
    getPosition (got_location (got_location st u fn1 un1 lat1 lon1 lp1 t1)
        u fn2 un2 lat2 lon2 lp2 t2) u = some ⟨lat2, lon2, t2, pyTruthy lp2⟩ ∧
    getPosition (got_location st u fn1 un1 lat1 lon1 lp1 t1) u =
      some ⟨lat1, lon1, t1, pyTruthy lp1⟩ ∧
    (∃ ts1 ts2,
      (getPosition (got_location st u fn1 un1 lat1 lon1 lp1 t1) u).map
          Location.updated_at = some ts1 ∧
      (getPosition (got_location (got_location st u fn1 un1 lat1 lon1 lp1 t1)
          u fn2 un2 lat2 lon2 lp2 t2) u).map Location.updated_at = some ts2 ∧
      ts1 ≤ ts2) ∧
    ((st.locations.map Prod.fst).Nodup →
      (((got_location (got_location st u fn1 un1 lat1 lon1 lp1 t1)
          u fn2 un2 lat2 lon2 lp2 t2).locations).map Prod.fst).Nodup) := by
  refine ⟨getPosition_got_location_self _ u fn2 un2 lat2 lon2 lp2 t2,
    getPosition_got_location_self st u fn1 un1 lat1 lon1 lp1 t1,
    ⟨t1, t2, ?_, ?_, h12⟩, fun hnd => ?_⟩
  · rw [getPosition_got_location_self st u fn1 un1 lat1 lon1 lp1 t1]
    rfl
  · rw [getPosition_got_location_self _ u fn2 un2 lat2 lon2 lp2 t2]
    rfl
  · exact nodup_keys_dictSet _ u _ (nodup_keys_dictSet _ u _ hnd)

/-- C7 witness: two concrete reports for user 1. -/
theorem C7_last_write_wins_witness :
    (1 : Int) ≤ 2 ∧
      (getPosition (got_location (got_location initState 1 "A" none 5 6 none 1)
          1 "A" none 7 8 (some 3) 2) 1 = some ⟨7, 8, 2, true⟩ ∧
      getPosition (got_location initState 1 "A" none 5 6 none 1) 1 =
        some ⟨5, 6, 1, false⟩ ∧
      (∃ ts1 ts2,
        (getPosition (got_location initState 1 "A" none 5 6 none 1) 1).map
            Location.updated_at = some ts1 ∧
        (getPosition (got_location (got_location initState 1 "A" none 5 6 none 1)
            1 "A" none 7 8 (some 3) 2) 1).map Location.updated_at = some ts2 ∧
        ts1 ≤ ts2) ∧
      ((initState.locations.map Prod.fst).Nodup →
        (((got_location (got_location initState 1 "A" none 5 6 none 1)
            1 "A" none 7 8 (some 3) 2).locations).map Prod.fst).Nodup)) :=
  ⟨by decide,
    C7_last_write_wins initState 1 "A" "A" none none 5 6 7 8 none (some 3) 1 2
      (by decide)⟩

/-- C10: a location report creates a placeholder profile only when the
user has none; an existing profile (and every other user's entries in
every register) is left unchanged, and only the reporter's Position
Register entry is written. -/
theorem C10_location_frame (st : ServerState) (u v : Int) (fn : String)
    (un : Option String) (lat lon : Int) (lp : Option Int) (t : Int)
    (hv : v ≠ u) :
    ((dictGet st.users u).isSome = true →
        (got_location st u fn un lat lon lp t).users = st.users) ∧
    (dictGet st.users u = none →
        dictGet (got_location st u fn un lat lon lp t).users u =
          some ⟨pyOrUser fn, un⟩) ∧
    dictGet (got_location st u fn un lat lon lp t).users v =
      dictGet st.users v ∧
    getPosition (got_location st u fn un lat lon lp t) v = getPosition st v ∧
    getPosition (got_location st u fn un lat lon lp t) u =
      some ⟨lat, lon, t, pyTruthy lp⟩ ∧
    (got_location st u fn un lat lon lp t).friends = st.friends ∧
    (got_location st u fn un lat lon lp t).invites = st.invites := by
  refine ⟨fun hs => ?_, fun hn => ?_, ?_,
    getPosition_got_location_other st u v fn un lat lon lp t hv,
    getPosition_got_location_self st u fn un lat lon lp t, rfl, rfl⟩
  · show (match dictGet st.users u with
      | some _ => st.users
      | none => dictSet st.users u ⟨pyOrUser fn, un⟩) = st.users
    cases hc : dictGet st.users u with
    | none => rw [hc] at hs; cases hs
    | some p => rfl
  · show dictGet (match dictGet st.users u with
      | some _ => st.users
      | none => dictSet st.users u ⟨pyOrUser fn, un⟩) u = _
    rw [hn, dictGet_dictSet]
    simp
  · show dictGet (match dictGet st.users u with
      | some _ => st.users
      | none => dictSet st.users u ⟨pyOrUser fn, un⟩) v = _
    cases hc : dictGet st.users u with
    | none => rw [dictGet_dictSet, if_neg (Ne.symm hv)]
    | some p => rfl

/-- C10 witness: user 1 reports a location in the empty state; user 2's
entries are untouched. -/
theorem C10_location_frame_witness :
    (2 : Int) ≠ 1 ∧
      (((dictGet initState.users 1).isSome = true →
          (got_location initState 1 "A" none 5 6 none 1).users =
            initState.users) ∧
      (dictGet initState.users 1 = none →
          dictGet (got_location initState 1 "A" none 5 6 none 1).users 1 =
            some ⟨pyOrUser "A", none⟩) ∧
      dictGet (got_location initState 1 "A" none 5 6 none 1).users 2 =
        dictGet initState.users 2 ∧
      getPosition (got_location initState 1 "A" none 5 6 none 1) 2 =
        getPosition initState 2 ∧
      getPosition (got_location initState 1 "A" none 5 6 none 1) 1 =
        some ⟨5, 6, 1, pyTruthy none⟩ ∧
      (got_location initState 1 "A" none 5 6 none 1).friends =
        initState.friends ∧
      (got_location initState 1 "A" none 5 6 none 1).invites =
        initState.invites) :=
  ⟨by decide, C10_location_frame initState 1 2 "A" none 5 6 none 1 (by decide)⟩

theorem invites_add_friend (st : ServerState) (a b : Int) :
    (add_friend st a b).invites = st.invites := rfl

/-- A successful accept means the code resolved to a nonzero owner
distinct from the requester, and the state moved by `add_friend`. -/
theorem api_accept_success (st : ServerState) (r : Int) (code : String)
    (h : (api_accept st r code).2 = true) :
    ∃ o, dictGet st.invites code = some o ∧ o ≠ 0 ∧ o ≠ r ∧
      (api_accept st r code).1 = add_friend st o r := by
  unfold api_accept at h ⊢
  cases hc : dictGet st.invites code with
  | none => rw [hc] at h; simp at h
  | some o =>
      rw [hc] at h
      by_cases h0 : o = 0 ∨ o = r
      · simp [h0] at h
      · push_neg at h0
        exact ⟨o, rfl, h0.1, h0.2, by simp [h0.1, h0.2]⟩

/-- Converse of `api_accept_success`: a stored nonzero owner distinct
from the requester is accepted. -/
theorem api_accept_succeeds (st : ServerState) (r : Int) (code : String)
    (o : Int) (ho : dictGet st.invites code = some o) (h0 : o ≠ 0)
    (hr : o ≠ r) : (api_accept st r code).2 = true := by
  unfold api_accept
  rw [ho]
  simp [h0, hr]

/-- C5: a successful accept leaves the code's ledger entry intact —
the code still resolves to the same owner — and a later accept of the
same code by any requester other than that owner succeeds as well. -/
theorem C5_invite_reusable (st : ServerState) (code : String) (r r' o : Int)
    (h : (api_accept st r code).2 = true)
    (ho : dictGet st.invites code = some o) (hr : r' ≠ o) :
    dictGet (api_accept st r code).1.invites code = some o ∧
      (api_accept (api_accept st r code).1 r' code).2 = true := by
  obtain ⟨o', ho', h0, hr0, heq⟩ := api_accept_success st r code h
  rw [ho] at ho'
  obtain rfl : o = o' := by injection ho'
  have hinv : dictGet (api_accept st r code).1.invites code = some o := by
    rw [heq, invites_add_friend]
    exact ho
  exact ⟨hinv, api_accept_succeeds _ r' code o hinv h0 (fun e => hr e.symm)⟩

/-- C5 witness: user 1's code `"c"` is accepted by user 2, then still
resolves to owner 1 and is accepted again by user 3. -/
theorem C5_invite_reusable_witness :
    (api_accept stAB1 2 "c").2 = true ∧
      dictGet stAB1.invites "c" = some 1 ∧ (3 : Int) ≠ 1 ∧
      (dictGet (api_accept stAB1 2 "c").1.invites "c" = some 1 ∧
        (api_accept (api_accept stAB1 2 "c").1 3 "c").2 = true) :=
  ⟨by decide, by decide, by decide,
    C5_invite_reusable stAB1 "c" 2 3 1 (by decide) (by decide) (by decide)⟩

/-- Each record of `/api/friends-locations` comes from a friend with a
stored position, and echoes that stored position exactly. -/
theorem mem_api_friends_locations (st : ServerState) (u : Int)
    (fl : FriendLoc) (h : fl ∈ api_friends_locations st u) :
    fl.user_id ∈ getFriends st u ∧
      getPosition st fl.user_id = some ⟨fl.lat, fl.lon, fl.updated_at, fl.is_live⟩ := by
  unfold api_friends_locations at h
  obtain ⟨fid, hfid, heq⟩ := List.mem_filterMap.mp h
  cases hp : getPosition st fid with
  | none => rw [hp] at heq; cases heq
  | some loc =>
      rw [hp] at heq
      simp only [Option.some.injEq] at heq
      rw [← heq]
      exact ⟨hfid, hp⟩

/-- Counting records with a given `user_id` over the filterMap of a
duplicate-free friend list. -/
theorem countP_friends_locations (st : ServerState) (f : Int) (l : List Int)
    (hl : l.Nodup) :
    ((l.filterMap (fun fid =>
        match getPosition st fid with
        | none => none
        | some loc =>
            some (⟨fid, loc.lat, loc.lon, loc.updated_at, loc.is_live⟩ : FriendLoc))).countP
      (fun fl => fl.user_id == f)) =
      if f ∈ l ∧ (getPosition st f).isSome = true then 1 else 0 := by
  induction l with
  | nil => simp
  | cons a l ih =>
      simp only [List.nodup_cons] at hl
      have ihl := ih hl.2
      cases hp : getPosition st a with
      | none =>
          simp only [List.filterMap_cons, hp]
          rw [ihl]
          by_cases hfa : f = a
          · subst hfa
            simp [hp, hl.1]
          · simp [List.mem_cons, hfa]
      | some loc =>
          simp only [List.filterMap_cons, hp, List.countP_cons]
          rw [ihl]
          by_cases hfa : f = a
          · subst hfa
            simp [hp, hl.1]
          · have hfa' : ¬ a = f := fun e => hfa e.symm
            simp [List.mem_cons, hfa, hfa']

/-- C4: for every reachable state and user `u`, the response of
`/api/friends-locations` holds exactly one record per friend of `u`
with a stored position (none for position-less friends or
non-friends), and every record echoes the Position Register entry of
its friend. -/
theorem C4_records_match_register (st : ServerState) (h : Reachable st)
    (u f : Int) (fl : FriendLoc) :
    ((api_friends_locations st u).countP (fun r => r.user_id == f) =
      if f ∈ getFriends st u ∧ (getPosition st f).isSome = true then 1 else 0) ∧
    (fl ∈ api_friends_locations st u →
      fl.user_id ∈ getFriends st u ∧
        getPosition st fl.user_id =
          some ⟨fl.lat, fl.lon, fl.updated_at, fl.is_live⟩) :=
  ⟨countP_friends_locations st f (getFriends st u)
      ((friendsInv_reachable h).2.2 u),
    fun hm => mem_api_friends_locations st u fl hm⟩

/-- C4 witness: in the reachable scenario state, user 1's response
holds exactly one record for friend 9, and that record echoes the
stored position of user 9. -/
theorem C4_records_match_register_witness :
    Reachable stSc ∧
      (⟨9, 10, 20, 100, false⟩ : FriendLoc) ∈ api_friends_locations stSc 1 ∧
      ((api_friends_locations stSc 1).countP (fun r => r.user_id == 9) =
        if (9 : Int) ∈ getFriends stSc 1 ∧ (getPosition stSc 9).isSome = true
        then 1 else 0) ∧
      ((9 : Int) ∈ getFriends stSc 1 ∧
        getPosition stSc 9 = some ⟨10, 20, 100, false⟩) :=
  ⟨reachable_stSc, by decide,
    (C4_records_match_register stSc reachable_stSc 1 9 ⟨9, 10, 20, 100, false⟩).1,
    (C4_records_match_register stSc reachable_stSc 1 9
        ⟨9, 10, 20, 100, false⟩).2 (by decide)⟩

end Trailzy
